import Mathlib

/-!
Verification of the ACH file server (moov-io/ach fork): a shallow embedding
of `server/files.go` (the temporal rule engine `fileHasOldBatches` and the
create/delete endpoints) and, modelled from the specification, the
routing-number check-digit validator whose implementation file is absent
from the sources (only its test is present).
-/

set_option autoImplicit false

namespace ACH

/-- A calendar time in the server's location, split into the calendar day
(as an integer day index) and the number of seconds into that day.  This
models Go's `time.Time` at the granularity the server code uses: `Date()`
projects the day, `time.Date(y, m, d, 0, 0, 0, 0, loc)` truncates to
midnight, and `Before` is the lexicographic strict order. -/
structure ACHTime where
  day : Int
  ofs : Nat
  deriving DecidableEq, Repr

/-- Go `t.Before(u)`: strict lexicographic comparison of (day, ofs). -/
def ACHTime.before (t u : ACHTime) : Bool :=
  decide (t.day < u.day) || (t.day == u.day && decide (t.ofs < u.ofs))

/-- Models `time.Date(y, m, d, 0, 0, 0, 0, now.Location())` applied to the
components of `now`: the same day, zero seconds into it. -/
def truncateToMidnight (t : ACHTime) : ACHTime :=
  { day := t.day, ofs := 0 }

/-- Batch header; the engine only reads `EffectiveEntryDate`. -/
structure BatchHeader where
  EffectiveEntryDate : ACHTime
  deriving DecidableEq, Repr

/-- A batch of `file.Batches`.  `header` models the `*BatchHeader` returned
by `GetHeader()` (`none` = nil pointer); `ID` models the `ID()` method. -/
structure Batch where
  ID : String
  header : Option BatchHeader
  deriving DecidableEq, Repr

/-- Go `batch.GetHeader()`. -/
def Batch.GetHeader (b : Batch) : Option BatchHeader :=
  b.header

/-- An IAT batch of `file.IATBatches`.  It carries its own header and ID,
but `fileHasOldBatches` never reads them (it re-reads `file.Batches`). -/
structure IATBatch where
  ID : String
  header : Option BatchHeader
  deriving DecidableEq, Repr

/-- File header fields used by the metrics code. -/
structure FileHeader where
  ImmediateOrigin : String
  ImmediateDestination : String
  deriving DecidableEq, Repr

/-- The `ach.File` aggregate, restricted to the fields `files.go` reads. -/
structure File where
  ID : String
  Header : FileHeader
  Batches : List Batch
  IATBatches : List IATBatch
  deriving DecidableEq, Repr

/-- The errors `fileHasOldBatches` can build: `errors.New("no ACH file
provided")`, and the `fmt.Errorf` stale-date error carrying the file ID, the
batch identifying token, the offending date, and whether it was produced by
the IAT loop (whose format string says `IATBatch=` instead of `batch=`). -/
inductive EngineError where
  | noFileProvided
  | staleEffectiveDate (fileId : String) (batchId : String) (date : ACHTime) (isIAT : Bool)
  deriving DecidableEq, Repr

/-- The Go error message rendered by each `EngineError`. -/
def EngineError.message : EngineError → String
  | .noFileProvided => "no ACH file provided"
  | .staleEffectiveDate fid bid d isIAT =>
      (if isIAT then "file=" ++ fid ++ " IATBatch=" ++ bid
       else "file=" ++ fid ++ " batch=" ++ bid)
        ++ " has EffectiveEntryDate before today: "
        ++ toString d.day ++ "d" ++ toString d.ofs ++ "s"

/-- Outcome of running `fileHasOldBatches`: a nil error, a non-nil error, or
a Go runtime panic (index out of range). -/
inductive EngineResult where
  | ok
  | fail (e : EngineError)
  | panicked
  deriving DecidableEq, Repr

/-- First loop of `fileHasOldBatches` (files.go:98-106): scan `file.Batches`
in order; skip a batch whose header is nil; return the stale-date error at
the first batch whose `EffectiveEntryDate` is before `today`. -/
def batchesLoop (fileId : String) (today : ACHTime) : List Batch → EngineResult
  | [] => .ok
  | b :: rest =>
    match b.GetHeader with
    | none => batchesLoop fileId today rest
    | some h =>
      if h.EffectiveEntryDate.before today then
        .fail (.staleEffectiveDate fileId b.ID h.EffectiveEntryDate false)
      else
        batchesLoop fileId today rest

/-- Second loop of `fileHasOldBatches` (files.go:107-115): iterate the index
range of `file.IATBatches` (`k` iterations remain, `i` is the current index)
but read `file.Batches[i]` — exactly as the source does.  Indexing `Batches`
out of range is a Go runtime panic. -/
def iatLoop (fileId : String) (today : ACHTime) (batches : List Batch) :
    Nat → Nat → EngineResult
  | _, 0 => .ok
  | i, k + 1 =>
    match batches[i]? with
    | none => .panicked
    | some b =>
      match b.GetHeader with
      | none => iatLoop fileId today batches (i + 1) k
      | some h =>
        if h.EffectiveEntryDate.before today then
          .fail (.staleEffectiveDate fileId b.ID h.EffectiveEntryDate true)
        else
          iatLoop fileId today batches (i + 1) k

/-- `fileHasOldBatches` (files.go:88-117).  A nil file yields the
`no ACH file provided` error; otherwise `today` is `now` truncated to
midnight and the two loops run in order, the second only when the first
found nothing. -/
def fileHasOldBatches (file : Option File) (now : ACHTime) : EngineResult :=
  match file with
  | none => .fail .noFileProvided
  | some f =>
    let today := truncateToMidnight now
    match batchesLoop f.ID today f.Batches with
    | .ok => iatLoop f.ID today f.Batches 0 f.IATBatches.length
    | r => r

/-- A batch neither skipped nor offending: its header is nil or its
effective date is not before `today`. -/
def batchPasses (today : ACHTime) (b : Batch) : Bool :=
  match b.GetHeader with
  | none => true
  | some h => !(h.EffectiveEntryDate.before today)

/-- Errors surfaced by the lifecycle service endpoints: an engine error
propagated by `createFileEndpoint`, or `NotFound` from the store. -/
inductive SvcError where
  | engine (e : EngineError)
  | notFound
  deriving DecidableEq, Repr

/-- Prometheus counters of `files.go`: each `filesCreated` increment is
recorded with its (destination, origin) label pair; `filesDeleted` is an
unlabelled count. -/
structure Metrics where
  created : List (String × String)
  deleted : Nat
  deriving DecidableEq, Repr

/-- Observable server state: the metrics registry and the repository's
contents. -/
structure ServerState where
  metrics : Metrics
  store : List File
  deriving DecidableEq, Repr

/-- Modelled from the spec: the store collaborator is a mapping from file ID
to file (`Store(file) -> error`, §3/§6); the implementation of
`Repository.StoreFile` is not among the sources.  Storing replaces any file
with the same ID and succeeds. -/
def StoreFile (f : File) (store : List File) : List File :=
  f :: store.filter (fun g => g.ID != f.ID)

/-- Modelled from the spec: `Delete(id)` removes the file from the store and
fails with `NotFound` if absent (§4.4); the implementation of
`Service.DeleteFile` is not among the sources. -/
def DeleteFile (id : String) (store : List File) : Option SvcError × List File :=
  if store.any (fun f => f.ID == id) then
    (none, store.filter (fun f => f.ID != id))
  else
    (some .notFound, store)

/-- The decoded body of a create request: `File` is a `*ach.File` (`none` =
nil pointer). -/
structure CreateFileRequest where
  file : Option File
  requestId : String
  deriving DecidableEq, Repr

/-- The `createFileResponse` struct: the file ID and the error field. -/
structure CreateFileResponse where
  ID : String
  Err : Option SvcError
  deriving DecidableEq, Repr

/-- What `createFileEndpoint` returns: the `(response, error)` pair, or a Go
runtime panic (nil-pointer dereference or index out of range). -/
inductive CreateOutcome where
  | resp (r : CreateFileResponse) (err : Option SvcError)
  | panicked
  deriving DecidableEq, Repr

/-- The ID-assignment step of `createFileEndpoint` (files.go:64-66): a fresh
ID from `NextID()` replaces an empty one. -/
def assignId (nextID : String) (f : File) : File :=
  if f.ID = "" then { f with ID := nextID } else f

/-- `createFileEndpoint` (files.go:54-86).  In source order: the creation
counter is incremented when the file pointer is non-nil and both
`ImmediateDestination` and `ImmediateOrigin` are non-empty; then
`req.File.ID` is dereferenced unconditionally (a nil file panics here); a
fresh ID is assigned if empty; `fileHasOldBatches` runs, and on failure the
response carries the assigned ID and the error without the store being
called; otherwise the file is stored.  `nextID` stands for the external
`NextID()` collaborator and `now` for the clock. -/
def createFileEndpoint (nextID : String) (now : ACHTime)
    (req : CreateFileRequest) (st : ServerState) : CreateOutcome × ServerState :=
  let st1 :=
    match req.file with
    | some f =>
      if f.Header.ImmediateDestination ≠ "" ∧ f.Header.ImmediateOrigin ≠ "" then
        { st with metrics :=
          { st.metrics with created :=
            st.metrics.created ++ [(f.Header.ImmediateDestination, f.Header.ImmediateOrigin)] } }
      else st
    | none => st
  match req.file with
  | none => (.panicked, st1)
  | some f0 =>
    let f := assignId nextID f0
    match fileHasOldBatches (some f) now with
    | .fail e => (.resp ⟨f.ID, some (.engine e)⟩ (some (.engine e)), st1)
    | .panicked => (.panicked, st1)
    | .ok =>
      (.resp ⟨f.ID, none⟩ none, { st1 with store := StoreFile f st1.store })

/-- The decoded body of a delete request. -/
structure DeleteFileRequest where
  ID : String
  requestId : String
  deriving DecidableEq, Repr

/-- The `deleteFileResponse` struct. -/
structure DeleteFileResponse where
  Err : Option SvcError
  deriving DecidableEq, Repr

/-- `deleteFileEndpoint` (files.go:233-248): `filesDeleted.Add(1)` runs
unconditionally before `s.DeleteFile(req.ID)`, whose error is returned in
the response. -/
def deleteFileEndpoint (req : DeleteFileRequest) (st : ServerState) :
    DeleteFileResponse × ServerState :=
  let st1 := { st with metrics := { st.metrics with deleted := st.metrics.deleted + 1 } }
  let r := DeleteFile req.ID st1.store
  (⟨r.1⟩, { st1 with store := r.2 })

/-- The weights the check-digit algorithm applies to the 8 digits, cycling
through 3, 7, 1 over positions 1-8 (§4.1). -/
def checkDigitWeights : List Nat := [3, 7, 1, 3, 7, 1, 3, 7]

/-- Weighted sum of the digit values against `checkDigitWeights`. -/
def weightedSum (ds : List Nat) : Nat :=
  ((ds.zip checkDigitWeights).map (fun p => p.1 * p.2)).sum

/-- Modelled from the spec: `CalculateCheckDigit` (§4.1); the validator
implementation file is not among the sources, only its test.  Inputs that
are not exactly 8 ASCII digits yield -1; otherwise the check digit is
`(10 - (weighted sum mod 10)) mod 10`. -/
def CalculateCheckDigit (routingNumber : String) : Int :=
  let cs := routingNumber.data
  if cs.length = 8 ∧ ∀ c ∈ cs, c.isDigit = true then
    Int.ofNat ((10 - weightedSum (cs.map (fun c => c.toNat - 48)) % 10) % 10)
  else
    -1

/-- The routing-number validation error (§4.1/§7). -/
inductive RoutingError where
  | invalidRoutingNumber
  deriving DecidableEq, Repr

/-- Modelled from the spec: `CheckRoutingNumber` (§4.1) fails with
`InvalidRoutingNumber` when the input is not exactly 9 digits, or when the
9th digit does not equal `CalculateCheckDigit` of the first 8. -/
def CheckRoutingNumber (routingNumber : String) : Option RoutingError :=
  let cs := routingNumber.data
  if cs.length = 9 ∧ ∀ c ∈ cs, c.isDigit = true then
    match (cs.drop 8).head? with
    | some c =>
      if CalculateCheckDigit ⟨cs.take 8⟩ = Int.ofNat (c.toNat - 48) then none
      else some .invalidRoutingNumber
    | none => some .invalidRoutingNumber
  else
    some .invalidRoutingNumber

theorem batchesLoop_eq_ok_iff (fid : String) (today : ACHTime) (bs : List Batch) :
    batchesLoop fid today bs = .ok ↔ ∀ b ∈ bs, batchPasses today b = true := by
  induction bs with
  | nil => simp [batchesLoop]
  | cons b rest ih =>
    cases hb : b.GetHeader with
    | none => simp [batchesLoop, hb, ih, batchPasses]
    | some h =>
      by_cases hst : h.EffectiveEntryDate.before today = true
      · simp [batchesLoop, hb, hst, batchPasses]
      · simp [batchesLoop, hb, hst, batchPasses, ih]

theorem batchesLoop_ne_panicked (fid : String) (today : ACHTime) (bs : List Batch) :
    batchesLoop fid today bs ≠ .panicked := by
  induction bs with
  | nil => simp [batchesLoop]
  | cons b rest ih =>
    cases hb : b.GetHeader with
    | none => simpa [batchesLoop, hb] using ih
    | some h =>
      by_cases hst : h.EffectiveEntryDate.before today = true
      · simp [batchesLoop, hb, hst]
      · simpa [batchesLoop, hb, hst] using ih

theorem batchesLoop_fail (fid : String) (today : ACHTime) (bs : List Batch) (e : EngineError)
    (hfail : batchesLoop fid today bs = .fail e) :
    ∃ b ∈ bs, ∃ h, b.GetHeader = some h ∧ h.EffectiveEntryDate.before today = true ∧
      e = .staleEffectiveDate fid b.ID h.EffectiveEntryDate false := by
  induction bs with
  | nil => simp [batchesLoop] at hfail
  | cons b rest ih =>
    cases hb : b.GetHeader with
    | none =>
      simp only [batchesLoop, hb] at hfail
      obtain ⟨b', hmem, rest'⟩ := ih hfail
      exact ⟨b', List.mem_cons_of_mem _ hmem, rest'⟩
    | some h =>
      by_cases hst : h.EffectiveEntryDate.before today = true
      · simp only [batchesLoop, hb, hst, if_true] at hfail
        have he : e = .staleEffectiveDate fid b.ID h.EffectiveEntryDate false := by
          cases hfail; rfl
        exact ⟨b, List.mem_cons_self _ _, h, hb, hst, he⟩
      · simp only [batchesLoop, hb, hst, if_false, Bool.false_eq_true] at hfail
        obtain ⟨b', hmem, rest'⟩ := ih hfail
        exact ⟨b', List.mem_cons_of_mem _ hmem, rest'⟩

theorem batchesLoop_first_fail (fid : String) (today : ACHTime) (pre post : List Batch)
    (b : Batch) (h : BatchHeader) (hpre : ∀ p ∈ pre, batchPasses today p = true)
    (hb : b.GetHeader = some h) (hst : h.EffectiveEntryDate.before today = true) :
    batchesLoop fid today (pre ++ b :: post)
      = .fail (.staleEffectiveDate fid b.ID h.EffectiveEntryDate false) := by
  induction pre with
  | nil => simp [batchesLoop, hb, hst]
  | cons p rest ih =>
    have hrest : ∀ q ∈ rest, batchPasses today q = true :=
      fun q hq => hpre q (List.mem_cons_of_mem _ hq)
    have hp := hpre p (List.mem_cons_self _ _)
    cases hph : p.GetHeader with
    | none =>
      simpa [batchesLoop, hph] using ih hrest
    | some ph =>
      have hpass : ph.EffectiveEntryDate.before today = false := by
        simpa [batchPasses, hph] using hp
      simpa [batchesLoop, hph, hpass] using ih hrest

theorem iatLoop_all_passes (fid : String) (today : ACHTime) (bs : List Batch)
    (hall : ∀ b ∈ bs, batchPasses today b = true) :
    ∀ k i, iatLoop fid today bs i k
      = if k = 0 ∨ i + k ≤ bs.length then .ok else .panicked := by
  intro k
  induction k with
  | zero =>
    intro i
    rw [if_pos (Or.inl rfl)]
    simp [iatLoop]
  | succ k ih =>
    intro i
    cases hbi : bs[i]? with
    | none =>
      have hlen : bs.length ≤ i := List.getElem?_eq_none_iff.mp hbi
      rw [if_neg (by omega)]
      simp [iatLoop, hbi]
    | some b =>
      have hi : i < bs.length := by
        obtain ⟨hlt, _⟩ := List.getElem?_eq_some_iff.mp hbi
        exact hlt
      have hmem : b ∈ bs := by
        obtain ⟨hlt, hget⟩ := List.getElem?_eq_some_iff.mp hbi
        exact hget ▸ List.getElem_mem hlt
      have hp := hall b hmem
      cases hbh : b.GetHeader with
      | none =>
        simp only [iatLoop, hbi, hbh]
        rw [ih (i + 1)]
        by_cases hc : i + (k + 1) ≤ bs.length
        · rw [if_pos (by omega), if_pos (by omega)]
        · rw [if_neg (by omega), if_neg (by omega)]
      | some h =>
        have hpass : h.EffectiveEntryDate.before today = false := by
          simpa [batchPasses, hbh] using hp
        simp only [iatLoop, hbi, hbh, hpass, Bool.false_eq_true, if_false]
        rw [ih (i + 1)]
        by_cases hc : i + (k + 1) ≤ bs.length
        · rw [if_pos (by omega), if_pos (by omega)]
        · rw [if_neg (by omega), if_neg (by omega)]

theorem iatLoop_fail (fid : String) (today : ACHTime) (bs : List Batch) :
    ∀ k i e, iatLoop fid today bs i k = .fail e →
      ∃ j, i ≤ j ∧ j < i + k ∧ ∃ b, bs[j]? = some b ∧ ∃ h, b.GetHeader = some h ∧
        h.EffectiveEntryDate.before today = true ∧
        e = .staleEffectiveDate fid b.ID h.EffectiveEntryDate true := by
  intro k
  induction k with
  | zero =>
    intro i e hf
    simp [iatLoop] at hf
  | succ k ih =>
    intro i e hf
    cases hbi : bs[i]? with
    | none => simp [iatLoop, hbi] at hf
    | some b =>
      cases hbh : b.GetHeader with
      | none =>
        simp only [iatLoop, hbi, hbh] at hf
        obtain ⟨j, hj1, hj2, rest⟩ := ih (i + 1) e hf
        exact ⟨j, by omega, by omega, rest⟩
      | some h =>
        by_cases hst : h.EffectiveEntryDate.before today = true
        · simp only [iatLoop, hbi, hbh, hst, if_true] at hf
          have he : e = .staleEffectiveDate fid b.ID h.EffectiveEntryDate true := by
            cases hf; rfl
          exact ⟨i, le_refl i, by omega, b, hbi, h, hbh, hst, he⟩
        · simp only [iatLoop, hbi, hbh, hst, Bool.false_eq_true, if_false] at hf
          obtain ⟨j, hj1, hj2, rest⟩ := ih (i + 1) e hf
          exact ⟨j, by omega, by omega, rest⟩

theorem iatLoop_ne_panicked (fid : String) (today : ACHTime) (bs : List Batch) :
    ∀ k i, i + k ≤ bs.length → iatLoop fid today bs i k ≠ .panicked := by
  intro k
  induction k with
  | zero =>
    intro i _
    simp [iatLoop]
  | succ k ih =>
    intro i hik
    cases hbi : bs[i]? with
    | none =>
      have hlen : bs.length ≤ i := List.getElem?_eq_none_iff.mp hbi
      omega
    | some b =>
      cases hbh : b.GetHeader with
      | none =>
        simp only [iatLoop, hbi, hbh]
        exact ih (i + 1) (by omega)
      | some h =>
        by_cases hst : h.EffectiveEntryDate.before today = true
        · simp [iatLoop, hbi, hbh, hst]
        · simp only [iatLoop, hbi, hbh, hst, Bool.false_eq_true, if_false]
          exact ih (i + 1) (by omega)

theorem fileHasOldBatches_fail (f : File) (now : ACHTime) (e : EngineError)
    (hf : fileHasOldBatches (some f) now = .fail e) :
    ∃ b ∈ f.Batches, ∃ h, b.GetHeader = some h ∧
      h.EffectiveEntryDate.before (truncateToMidnight now) = true ∧
      ∃ isIAT, e = .staleEffectiveDate f.ID b.ID h.EffectiveEntryDate isIAT := by
  simp only [fileHasOldBatches] at hf
  cases hbl : batchesLoop f.ID (truncateToMidnight now) f.Batches with
  | ok =>
    rw [hbl] at hf
    obtain ⟨j, _, _, b, hbj, h, hbh, hst, he⟩ :=
      iatLoop_fail f.ID (truncateToMidnight now) f.Batches f.IATBatches.length 0 e hf
    obtain ⟨hlt, hget⟩ := List.getElem?_eq_some_iff.mp hbj
    exact ⟨b, hget ▸ List.getElem_mem hlt, h, hbh, hst, true, he⟩
  | fail e2 =>
    rw [hbl] at hf
    have he2 : e2 = e := by cases hf; rfl
    obtain ⟨b, hmem, h, hbh, hst, he⟩ :=
      batchesLoop_fail f.ID (truncateToMidnight now) f.Batches e (he2 ▸ hbl)
    exact ⟨b, hmem, h, hbh, hst, false, he⟩
  | panicked =>
    exact absurd hbl (batchesLoop_ne_panicked _ _ _)

/-- C9: calling the temporal rule engine with a nil file returns the
`no ACH file provided` error (not nil, and no panic). -/
theorem c9_nilFile_noFileProvided (now : ACHTime) :
    fileHasOldBatches none now = .fail .noFileProvided ∧
    EngineError.message .noFileProvided = "no ACH file provided" :=
  ⟨rfl, rfl⟩

/-- C1: the IAT loop of `fileHasOldBatches` iterates the index range of
`IATBatches` but reads the header it checks from `Batches` at that index:
the engine's result is invariant under replacing `IATBatches` by any list
of the same length, and any error the IAT loop produces names the ID and
the header date of `Batches[i]` for an index `i` in range of `IATBatches`. -/
theorem c1_crossCollectionIndexing (f : File) (now : ACHTime) (ys : List IATBatch)
    (hlen : ys.length = f.IATBatches.length) :
    fileHasOldBatches (some { f with IATBatches := ys }) now
      = fileHasOldBatches (some f) now ∧
    (∀ e, iatLoop f.ID (truncateToMidnight now) f.Batches 0 f.IATBatches.length
        = .fail e →
      ∃ i, i < f.IATBatches.length ∧ ∃ hi : i < f.Batches.length, ∃ h,
        (f.Batches.get ⟨i, hi⟩).GetHeader = some h ∧
        h.EffectiveEntryDate.before (truncateToMidnight now) = true ∧
        e = .staleEffectiveDate f.ID (f.Batches.get ⟨i, hi⟩).ID
              h.EffectiveEntryDate true) := by
  constructor
  · simp only [fileHasOldBatches, hlen]
  · intro e hf
    obtain ⟨j, _, hj2, b, hbj, h, hbh, hst, he⟩ :=
      iatLoop_fail f.ID (truncateToMidnight now) f.Batches f.IATBatches.length 0 e hf
    obtain ⟨hlt, hget⟩ := List.getElem?_eq_some_iff.mp hbj
    refine ⟨j, by omega, hlt, h, ?_, hst, ?_⟩
    · rw [show f.Batches.get ⟨j, hlt⟩ = b from hget]
      exact hbh
    · rw [show f.Batches.get ⟨j, hlt⟩ = b from hget]
      exact he

/-- C2: on any non-nil file whose `IATBatches` is strictly longer than its
`Batches` and none of whose batches triggers the stale-date error, the
temporal check indexes `Batches` out of range and panics instead of
returning an error value. -/
theorem c2_iatLonger_panics (f : File) (now : ACHTime)
    (hlen : f.Batches.length < f.IATBatches.length)
    (hok : ∀ b ∈ f.Batches, batchPasses (truncateToMidnight now) b = true) :
    fileHasOldBatches (some f) now = .panicked := by
  have h1 := (batchesLoop_eq_ok_iff f.ID (truncateToMidnight now) f.Batches).mpr hok
  simp only [fileHasOldBatches, h1]
  rw [iatLoop_all_passes f.ID (truncateToMidnight now) f.Batches hok
        f.IATBatches.length 0]
  rw [if_neg (by omega)]

/-- C6: the temporal check reports at most one violation, the first
offending batch encountered: whenever `Batches` splits as a passing prefix
followed by an offending batch, the result is exactly that batch's
stale-date error, independent of everything after it and of `IATBatches`. -/
theorem c6_firstOffender_shortCircuit (f : File) (now : ACHTime)
    (pre post : List Batch) (b : Batch) (h : BatchHeader)
    (hsplit : f.Batches = pre ++ b :: post)
    (hpre : ∀ p ∈ pre, batchPasses (truncateToMidnight now) p = true)
    (hb : b.GetHeader = some h)
    (hst : h.EffectiveEntryDate.before (truncateToMidnight now) = true) :
    fileHasOldBatches (some f) now
      = .fail (.staleEffectiveDate f.ID b.ID h.EffectiveEntryDate false) := by
  simp only [fileHasOldBatches]
  rw [hsplit, batchesLoop_first_fail f.ID (truncateToMidnight now) pre post b h hpre hb hst]

/-- C3 fails as stated, at two concrete inputs evaluated at `now` =
day 10, 5 seconds past midnight (so `today` = day 10, midnight).
First file: no `Batches`, one IAT batch dated today — every batch's
effective date is today or later, yet the check does not pass (it panics
on the out-of-range read `Batches[0]`).  Second file: one passing batch
and one IAT batch dated yesterday (day 9, before today) — a batch's
effective date is strictly before today, yet no error is returned, because
the IAT loop reads `Batches[0]` instead of the IAT batch. -/
theorem c3_counterexample :
    (ACHTime.before ⟨10, 0⟩ (truncateToMidnight ⟨10, 5⟩) = false ∧
      fileHasOldBatches
        (some ⟨"fA", ⟨"o", "d"⟩, [], [⟨"i1", some ⟨⟨10, 0⟩⟩⟩]⟩) ⟨10, 5⟩ ≠ .ok) ∧
    (ACHTime.before ⟨9, 0⟩ (truncateToMidnight ⟨10, 5⟩) = true ∧
      ∀ e, fileHasOldBatches
        (some ⟨"fB", ⟨"o", "d"⟩, [⟨"b1", some ⟨⟨10, 0⟩⟩⟩],
          [⟨"i1", some ⟨⟨9, 0⟩⟩⟩]⟩) ⟨10, 5⟩ ≠ .fail e) := by
  refine ⟨⟨by decide, by decide⟩, by decide, ?_⟩
  intro e he
  have hok : fileHasOldBatches
      (some ⟨"fB", ⟨"o", "d"⟩, [⟨"b1", some ⟨⟨10, 0⟩⟩⟩],
        [⟨"i1", some ⟨⟨9, 0⟩⟩⟩]⟩) ⟨10, 5⟩ = .ok := by decide
  rw [hok] at he
  exact EngineResult.noConfusion he

/-- C3 amended: for every non-nil file whose `IATBatches` is no longer than
its `Batches`, with `today` the current time truncated to midnight: the
check passes exactly when every batch of `Batches` either has an absent
header (skipped) or an effective date not before `today`; it never panics;
and any error it returns is the stale-date error naming the file ID, the
offending batch's ID and its effective date.  (The effective dates of the
IAT batches themselves are never consulted: the IAT loop re-reads
`Batches`.) -/
theorem c3_temporalCheck_amended (f : File) (now : ACHTime)
    (hlen : f.IATBatches.length ≤ f.Batches.length) :
    (fileHasOldBatches (some f) now = .ok ↔
      ∀ b ∈ f.Batches, batchPasses (truncateToMidnight now) b = true) ∧
    fileHasOldBatches (some f) now ≠ .panicked ∧
    (∀ e, fileHasOldBatches (some f) now = .fail e →
      ∃ b ∈ f.Batches, ∃ h, b.GetHeader = some h ∧
        h.EffectiveEntryDate.before (truncateToMidnight now) = true ∧
        e = .staleEffectiveDate f.ID b.ID h.EffectiveEntryDate false) := by
  cases hbl : batchesLoop f.ID (truncateToMidnight now) f.Batches with
  | ok =>
    have hall := (batchesLoop_eq_ok_iff f.ID (truncateToMidnight now) f.Batches).mp hbl
    have hiat := iatLoop_all_passes f.ID (truncateToMidnight now) f.Batches hall
      f.IATBatches.length 0
    rw [if_pos (by omega)] at hiat
    refine ⟨?_, ?_, ?_⟩
    · simp only [fileHasOldBatches, hbl, hiat]
      exact ⟨fun _ => hall, fun _ => trivial⟩
    · simp only [fileHasOldBatches, hbl, hiat]
      exact fun h => EngineResult.noConfusion h
    · intro e he
      simp only [fileHasOldBatches, hbl, hiat] at he
      exact absurd he (fun h => EngineResult.noConfusion h)
  | fail e2 =>
    have hshape := batchesLoop_fail f.ID (truncateToMidnight now) f.Batches e2 hbl
    refine ⟨?_, ?_, ?_⟩
    · simp only [fileHasOldBatches, hbl]
      constructor
      · intro h
        exact absurd h (fun h => EngineResult.noConfusion h)
      · intro hall
        exact absurd ((batchesLoop_eq_ok_iff f.ID (truncateToMidnight now)
          f.Batches).mpr hall) (by rw [hbl]; exact fun h => EngineResult.noConfusion h)
    · simp only [fileHasOldBatches, hbl]
      exact fun h => EngineResult.noConfusion h
    · intro e he
      simp only [fileHasOldBatches, hbl] at he
      have : e2 = e := by cases he; rfl
      exact this ▸ hshape
  | panicked =>
    exact absurd hbl (batchesLoop_ne_panicked _ _ _)

/-- C5: when the temporal check rejects the (ID-assigned) file, the create
endpoint returns that error without the store being touched, and the
response carries the file's ID — the `NextID()` value when the submitted
ID was empty. -/
theorem c5_create_staleRejected_noStore (nextID : String) (now : ACHTime)
    (f0 : File) (rid : String) (st : ServerState) (e : EngineError)
    (hfail : fileHasOldBatches (some (assignId nextID f0)) now = .fail e) :
    (createFileEndpoint nextID now ⟨some f0, rid⟩ st).2.store = st.store ∧
    (createFileEndpoint nextID now ⟨some f0, rid⟩ st).1
      = .resp ⟨(assignId nextID f0).ID, some (.engine e)⟩ (some (.engine e)) ∧
    (f0.ID = "" → (assignId nextID f0).ID = nextID) := by
  refine ⟨?_, ?_, ?_⟩
  · simp only [createFileEndpoint, hfail]
    split <;> rfl
  · simp only [createFileEndpoint, hfail]
  · intro h0
    simp [assignId, h0]

/-- C7: the creation counter is incremented, tagged with the destination
and origin identifiers, exactly when the submitted file is non-nil and
both identifiers are non-empty; otherwise it is unchanged. -/
theorem c7_creationCounter (nextID : String) (now : ACHTime)
    (req : CreateFileRequest) (st : ServerState) :
    (∀ f, req.file = some f → f.Header.ImmediateDestination ≠ "" →
        f.Header.ImmediateOrigin ≠ "" →
      (createFileEndpoint nextID now req st).2.metrics.created
        = st.metrics.created
            ++ [(f.Header.ImmediateDestination, f.Header.ImmediateOrigin)]) ∧
    ((∀ f, req.file = some f →
        f.Header.ImmediateDestination = "" ∨ f.Header.ImmediateOrigin = "") →
      (createFileEndpoint nextID now req st).2.metrics.created
        = st.metrics.created) := by
  cases hreq : req.file with
  | none =>
    constructor
    · intro f hf
      exact Option.noConfusion hf
    · intro _
      simp [createFileEndpoint, hreq]
  | some f =>
    constructor
    · intro f2 hf2 hd ho
      have hff : f = f2 := by
        cases hf2
        rfl
      subst hff
      simp only [createFileEndpoint, hreq]
      rw [if_pos ⟨hd, ho⟩]
      split <;> rfl
    · intro hcond
      have hcf := hcond f rfl
      simp only [createFileEndpoint, hreq]
      rw [if_neg (by tauto)]
      split <;> rfl

/-- C8: every call of the delete endpoint increments the deletion counter
by exactly one, unconditionally (also when the delete then fails with
`NotFound`), and never touches the tagged creation counter. -/
theorem c8_deletionCounter (req : DeleteFileRequest) (st : ServerState) :
    (deleteFileEndpoint req st).2.metrics.deleted = st.metrics.deleted + 1 ∧
    (deleteFileEndpoint req st).2.metrics.created = st.metrics.created ∧
    ((∀ f ∈ st.store, f.ID ≠ req.ID) →
      (deleteFileEndpoint req st).1.Err = some .notFound) := by
  refine ⟨rfl, rfl, ?_⟩
  · intro habs
    simp only [deleteFileEndpoint, DeleteFile]
    rw [if_neg ?hne]
    case hne =>
      simp only [List.any_eq_true, not_exists, not_and]
      intro f hf
      simpa using habs f hf

/-- C10: a create request carrying a nil file panics (the endpoint
dereferences `req.File.ID` before the engine's nil guard can run), and no
create response can ever carry the `NoFileProvided` error: the nil guard
inside `fileHasOldBatches` is unreachable through the create endpoint. -/
theorem c10_create_nilFile_panics (nextID : String) (now : ACHTime)
    (rid : String) (st : ServerState) :
    (createFileEndpoint nextID now ⟨none, rid⟩ st).1 = .panicked ∧
    (∀ req st2 r err, (createFileEndpoint nextID now req st2).1 = .resp r err →
      err ≠ some (.engine .noFileProvided) ∧
      r.Err ≠ some (.engine .noFileProvided)) := by
  constructor
  · rfl
  · intro req st2 r err hresp
    cases hreq : req.file with
    | none =>
      simp only [createFileEndpoint, hreq] at hresp
      exact absurd hresp (fun h => CreateOutcome.noConfusion h)
    | some f0 =>
      cases hfh : fileHasOldBatches (some (assignId nextID f0)) now with
      | ok =>
        simp only [createFileEndpoint, hreq, hfh] at hresp
        obtain ⟨hr, herr⟩ : (⟨(assignId nextID f0).ID, none⟩ : CreateFileResponse) = r
            ∧ (none : Option SvcError) = err := by
          cases hresp
          exact ⟨rfl, rfl⟩
        constructor
        · rw [← herr]
          exact fun h => Option.noConfusion h
        · rw [← hr]
          exact fun h => Option.noConfusion h
      | fail e =>
        obtain ⟨b, _, h, _, _, isIAT, he⟩ :=
          fileHasOldBatches_fail (assignId nextID f0) now e hfh
        have hne : e ≠ .noFileProvided := by
          rw [he]
          exact fun h => EngineError.noConfusion h
        simp only [createFileEndpoint, hreq, hfh] at hresp
        obtain ⟨hr, herr⟩ : (⟨(assignId nextID f0).ID, some (.engine e)⟩ :
              CreateFileResponse) = r ∧ (some (SvcError.engine e)) = err := by
          cases hresp
          exact ⟨rfl, rfl⟩
        constructor
        · rw [← herr]
          intro hcon
          cases hcon
          exact hne rfl
        · rw [← hr]
          intro hcon
          cases hcon
          exact hne rfl
      | panicked =>
        simp only [createFileEndpoint, hreq, hfh] at hresp
        exact absurd hresp (fun h => CreateOutcome.noConfusion h)

theorem checkRoutingNumber_push (s : String) (hlen : s.data.length = 8)
    (hdig : ∀ c ∈ s.data, c.isDigit = true) (d : Nat) (hd : d < 10)
    (hcd : CalculateCheckDigit s = Int.ofNat d) :
    CheckRoutingNumber (s.push (Char.ofNat (48 + d))) = none := by
  have hpush : (s.push (Char.ofNat (48 + d))).data
      = s.data ++ [Char.ofNat (48 + d)] := rfl
  have hdig9 : (Char.ofNat (48 + d)).isDigit = true := by
    interval_cases d <;> decide
  have hval : (Char.ofNat (48 + d)).toNat - 48 = d := by
    interval_cases d <;> decide
  simp only [CheckRoutingNumber, hpush]
  rw [if_pos ?hc]
  case hc =>
    constructor
    · simp [hlen]
    · intro c hc
      rcases List.mem_append.mp hc with h1 | h1
      · exact hdig c h1
      · rw [List.mem_singleton.mp h1]
        exact hdig9
  rw [List.drop_left' hlen, List.head?_cons]
  simp only [List.take_left' hlen, hval]
  rw [if_pos (show CalculateCheckDigit ⟨s.data⟩ = Int.ofNat d from hcd)]

/-- C4: on every 8-character string of ASCII digits, `CalculateCheckDigit`
returns the digit 0-9 given by `(10 - (weighted sum mod 10)) mod 10` with
weights cycling 3, 7, 1 over the 8 positions, and appending that digit
yields a 9-digit string accepted by `CheckRoutingNumber`; every other
input yields -1; and the four concrete vectors hold. -/
theorem c4_calculateCheckDigit (s : String) :
    ((s.data.length = 8 ∧ ∀ c ∈ s.data, c.isDigit = true) →
      ∃ d : Nat, d ≤ 9 ∧
        CalculateCheckDigit s
          = Int.ofNat ((10 - weightedSum (s.data.map (fun c => c.toNat - 48)) % 10) % 10) ∧
        CalculateCheckDigit s = Int.ofNat d ∧
        CheckRoutingNumber (s.push (Char.ofNat (48 + d))) = none) ∧
    (¬(s.data.length = 8 ∧ ∀ c ∈ s.data, c.isDigit = true) →
      CalculateCheckDigit s = -1) ∧
    CalculateCheckDigit "07300022" = 8 ∧
    CalculateCheckDigit "10200007" = 6 ∧
    CalculateCheckDigit "" = -1 ∧
    CalculateCheckDigit "1a8ab" = -1 := by
  refine ⟨?_, ?_, by decide, by decide, by decide, by decide⟩
  · rintro ⟨hlen, hdig⟩
    have hcd : CalculateCheckDigit s
        = Int.ofNat ((10 - weightedSum (s.data.map (fun c => c.toNat - 48)) % 10) % 10) := by
      simp only [CalculateCheckDigit]
      rw [if_pos ⟨hlen, hdig⟩]
    have hd10 : (10 - weightedSum (s.data.map (fun c => c.toNat - 48)) % 10) % 10 < 10 :=
      Nat.mod_lt _ (by norm_num)
    exact ⟨_, by omega, hcd, hcd,
      checkRoutingNumber_push s hlen hdig _ hd10 hcd⟩
  · intro h
    simp only [CalculateCheckDigit]
    rw [if_neg h]

/-- Witness for C1 at a concrete file: one stale batch, one IAT batch;
replacing the IAT batch changes nothing, and the IAT loop's error on this
`Batches` list names the batch's ID and date. -/
theorem c1_witness :
    fileHasOldBatches
        (some ⟨"f1", ⟨"o", "d"⟩, [⟨"b0", some ⟨⟨9, 0⟩⟩⟩], [⟨"i9", some ⟨⟨1, 1⟩⟩⟩]⟩)
        ⟨10, 5⟩
      = fileHasOldBatches
        (some ⟨"f1", ⟨"o", "d"⟩, [⟨"b0", some ⟨⟨9, 0⟩⟩⟩], [⟨"i0", none⟩]⟩) ⟨10, 5⟩ ∧
    (∃ i, i < 1 ∧ ∃ hi : i < 1, ∃ h,
      (([⟨"b0", some ⟨⟨9, 0⟩⟩⟩] : List Batch).get ⟨i, hi⟩).GetHeader = some h ∧
      h.EffectiveEntryDate.before (truncateToMidnight ⟨10, 5⟩) = true ∧
      EngineError.staleEffectiveDate "f1" "b0" ⟨9, 0⟩ true
        = .staleEffectiveDate "f1" (([⟨"b0", some ⟨⟨9, 0⟩⟩⟩] : List Batch).get ⟨i, hi⟩).ID
            h.EffectiveEntryDate true) :=
  ⟨(c1_crossCollectionIndexing
      ⟨"f1", ⟨"o", "d"⟩, [⟨"b0", some ⟨⟨9, 0⟩⟩⟩], [⟨"i0", none⟩]⟩ ⟨10, 5⟩
      [⟨"i9", some ⟨⟨1, 1⟩⟩⟩] (by decide)).1,
   (c1_crossCollectionIndexing
      ⟨"f1", ⟨"o", "d"⟩, [⟨"b0", some ⟨⟨9, 0⟩⟩⟩], [⟨"i0", none⟩]⟩ ⟨10, 5⟩
      [⟨"i9", some ⟨⟨1, 1⟩⟩⟩] (by decide)).2
      (.staleEffectiveDate "f1" "b0" ⟨9, 0⟩ true) (by decide)⟩

/-- Witness for C2: a file with no batches and one IAT batch panics. -/
theorem c2_witness :
    fileHasOldBatches (some ⟨"f2", ⟨"o", "d"⟩, [], [⟨"i0", none⟩]⟩) ⟨10, 5⟩
      = .panicked :=
  c2_iatLonger_panics ⟨"f2", ⟨"o", "d"⟩, [], [⟨"i0", none⟩]⟩ ⟨10, 5⟩
    (by decide) (by decide)

/-- Witness for C3 (amended): a file whose only batch is dated today, with
no IAT batches, passes the temporal check. -/
theorem c3_witness :
    fileHasOldBatches
      (some ⟨"f3", ⟨"o", "d"⟩, [⟨"b0", some ⟨⟨10, 0⟩⟩⟩], []⟩) ⟨10, 5⟩ = .ok :=
  (c3_temporalCheck_amended ⟨"f3", ⟨"o", "d"⟩, [⟨"b0", some ⟨⟨10, 0⟩⟩⟩], []⟩
    ⟨10, 5⟩ (by decide)).1.mpr (by decide)

/-- Witness for C5: a file with an empty ID and a stale batch is rejected
with the store untouched and the response carrying the fresh ID. -/
theorem c5_witness :
    (createFileEndpoint "nid" ⟨10, 5⟩
        ⟨some ⟨"", ⟨"o", "d"⟩, [⟨"b0", some ⟨⟨9, 0⟩⟩⟩], []⟩, "r"⟩
        ⟨⟨[], 0⟩, []⟩).2.store = [] ∧
    (createFileEndpoint "nid" ⟨10, 5⟩
        ⟨some ⟨"", ⟨"o", "d"⟩, [⟨"b0", some ⟨⟨9, 0⟩⟩⟩], []⟩, "r"⟩
        ⟨⟨[], 0⟩, []⟩).1
      = .resp ⟨"nid", some (.engine (.staleEffectiveDate "nid" "b0" ⟨9, 0⟩ false))⟩
          (some (.engine (.staleEffectiveDate "nid" "b0" ⟨9, 0⟩ false))) ∧
    (("" : String) = "" →
      (assignId "nid" ⟨"", ⟨"o", "d"⟩, [⟨"b0", some ⟨⟨9, 0⟩⟩⟩], []⟩).ID = "nid") :=
  c5_create_staleRejected_noStore "nid" ⟨10, 5⟩
    ⟨"", ⟨"o", "d"⟩, [⟨"b0", some ⟨⟨9, 0⟩⟩⟩], []⟩ "r" ⟨⟨[], 0⟩, []⟩
    (.staleEffectiveDate "nid" "b0" ⟨9, 0⟩ false) (by decide)

/-- Witness for C6: with a headerless first batch, a stale second batch and
a third (also stale) batch, the error names the second batch only. -/
theorem c6_witness :
    fileHasOldBatches
      (some ⟨"f6", ⟨"o", "d"⟩,
        [⟨"p0", none⟩, ⟨"b1", some ⟨⟨9, 0⟩⟩⟩, ⟨"b2", some ⟨⟨8, 0⟩⟩⟩],
        [⟨"i0", some ⟨⟨1, 0⟩⟩⟩]⟩) ⟨10, 5⟩
      = .fail (.staleEffectiveDate "f6" "b1" ⟨9, 0⟩ false) :=
  c6_firstOffender_shortCircuit
    ⟨"f6", ⟨"o", "d"⟩,
      [⟨"p0", none⟩, ⟨"b1", some ⟨⟨9, 0⟩⟩⟩, ⟨"b2", some ⟨⟨8, 0⟩⟩⟩],
      [⟨"i0", some ⟨⟨1, 0⟩⟩⟩]⟩ ⟨10, 5⟩
    [⟨"p0", none⟩] [⟨"b2", some ⟨⟨8, 0⟩⟩⟩] ⟨"b1", some ⟨⟨9, 0⟩⟩⟩ ⟨⟨9, 0⟩⟩
    rfl (by decide) rfl (by decide)

/-- Witness for C7: a create with both identifiers set appends exactly one
tagged increment to the creation counter. -/
theorem c7_witness :
    (createFileEndpoint "n" ⟨10, 5⟩
        ⟨some ⟨"x", ⟨"orig", "dest"⟩, [], []⟩, "r"⟩
        ⟨⟨[("a", "b")], 3⟩, []⟩).2.metrics.created
      = [("a", "b")] ++ [("dest", "orig")] :=
  (c7_creationCounter "n" ⟨10, 5⟩ ⟨some ⟨"x", ⟨"orig", "dest"⟩, [], []⟩, "r"⟩
    ⟨⟨[("a", "b")], 3⟩, []⟩).1
    ⟨"x", ⟨"orig", "dest"⟩, [], []⟩ rfl (by decide) (by decide)

/-- Witness for C8: deleting an absent ID still increments the deletion
counter and leaves the creation counter alone, while failing NotFound. -/
theorem c8_witness :
    (deleteFileEndpoint ⟨"x", "r"⟩ ⟨⟨[("a", "b")], 3⟩, []⟩).2.metrics.deleted = 3 + 1 ∧
    (deleteFileEndpoint ⟨"x", "r"⟩ ⟨⟨[("a", "b")], 3⟩, []⟩).2.metrics.created
      = [("a", "b")] ∧
    (deleteFileEndpoint ⟨"x", "r"⟩ ⟨⟨[("a", "b")], 3⟩, []⟩).1.Err = some .notFound := by
  have h := c8_deletionCounter ⟨"x", "r"⟩ ⟨⟨[("a", "b")], 3⟩, []⟩
  exact ⟨h.1, h.2.1, h.2.2 (by decide)⟩

/-- Witness for C10: a nil-file create request panics, and a successful
create never mentions NoFileProvided. -/
theorem c10_witness :
    (createFileEndpoint "n" ⟨10, 5⟩ ⟨none, "r"⟩ ⟨⟨[], 0⟩, []⟩).1 = .panicked ∧
    ((none : Option SvcError) ≠ some (.engine .noFileProvided) ∧
      (⟨"id1", none⟩ : CreateFileResponse).Err ≠ some (.engine .noFileProvided)) :=
  ⟨(c10_create_nilFile_panics "n" ⟨10, 5⟩ "r" ⟨⟨[], 0⟩, []⟩).1,
   (c10_create_nilFile_panics "n" ⟨10, 5⟩ "r" ⟨⟨[], 0⟩, []⟩).2
     ⟨some ⟨"id1", ⟨"o", "d"⟩, [], []⟩, "r"⟩ ⟨⟨[], 0⟩, []⟩
     ⟨"id1", none⟩ none (by decide)⟩

/-- Witness for C4 at the vector 07300022: the computed digit is in range
and appending it is accepted by the routing-number check. -/
theorem c4_witness :
    (("07300022" : String).data.length = 8 ∧
      ∀ c ∈ ("07300022" : String).data, c.isDigit = true) ∧
    ∃ d : Nat, d ≤ 9 ∧
      CalculateCheckDigit "07300022"
        = Int.ofNat ((10 - weightedSum
            (("07300022" : String).data.map (fun c => c.toNat - 48)) % 10) % 10) ∧
      CalculateCheckDigit "07300022" = Int.ofNat d ∧
      CheckRoutingNumber (("07300022" : String).push (Char.ofNat (48 + d))) = none :=
  ⟨⟨by decide, by decide⟩, (c4_calculateCheckDigit "07300022").1 ⟨by decide, by decide⟩⟩

end ACH
